import Mathlib

/-!
Shallow embedding of the transcription session controller in
`app/src/main/jni/helium314_keyboard_voice_whisper_WhisperGGML.cpp`.

Language identifiers (the values returned by `whisper_lang_id`) are modelled
as `Int` (the C `int`; `-1` stands for an unrecognized tag).  The engine's
vocabulary functions `whisper_lang_str` and `whisper_token_to_str` are
external, so they appear as function parameters.
-/

namespace WhisperGGML

abbrev LangId := Int

/-- The language-related fields of `whisper_full_params` that
`inferNative` fills in: `wparams.language` (`none` models the C `nullptr`)
and the `allowed_langs` buffer described by
`wparams.allowed_langs` / `wparams.allowed_langs_size`. -/
structure WParamsLang where
  language : Option LangId
  allowed_langs : List LangId
deriving Repr, DecidableEq

/-- The language-configuration block of `inferNative` (the
`if(allowed_languages.size() == 0) ... else ...` chain at lines 135-195).

* size 0: `language = nullptr` (full auto-detection), no allowed list;
* size 1: `language = allowed[0]`, `allowed_langs = allowed` (strict lock);
* size 2 with `allowed[0]==allowed[1]`: `language = allowed[0]`,
  `allowed_langs_size` forced to 1, so the list seen by the engine is the
  first element only (strict lock);
* size > 2 with `allowed[0]==allowed[1]`: `language = allowed[0]`,
  `allowed_langs = allowed_languages.data() + 1` with size `size - 1`,
  i.e. the list with its first cell skipped;
* otherwise (first two entries distinct): `language = allowed[0]`,
  `allowed_langs = allowed` unchanged. -/
def configure_language : List LangId → WParamsLang
  | [] => { language := none, allowed_langs := [] }
  | [l] => { language := some l, allowed_langs := [l] }
  | l0 :: l1 :: rest =>
    if l0 = l1 then
      if rest.isEmpty then
        { language := some l0, allowed_langs := [l0] }
      else
        { language := some l0, allowed_langs := l1 :: rest }
    else
      { language := some l0, allowed_langs := l0 :: l1 :: rest }

/-- The spec-level view of the resolved language parameters. -/
structure DecodePolicy where
  primary_hint : Option LangId
  allow_list : List LangId
  auto_detect : Bool
deriving Repr, DecidableEq

/-- Whether the configured parameters leave language detection running.
Per the code's own labelling: `language = nullptr` is "FULL AUTO-DETECTION"
(line 138); more than one allowed language is "HINTED AUTO-DETECTION" /
"PRIORITIZED MULTI-LANGUAGE" (lines 169, 186); exactly one allowed language
is a "STRICT LOCK" (lines 145, 158). -/
def policy_auto_detect (wp : WParamsLang) : Bool :=
  wp.language.isNone || decide (1 < wp.allowed_langs.length)

/-- Language-constraint resolution as a `DecodePolicy`: the primary hint is
`wparams.language`, the allow-list is the `allowed_langs` buffer, and
auto-detect is read off the configured parameters. -/
def resolve (preferred : List LangId) : DecodePolicy :=
  let wp := configure_language preferred
  { primary_hint := wp.language
    allow_list := wp.allowed_langs
    auto_detect := policy_auto_detect wp }

/-! ### Per-session state (`struct WhisperModelState`) -/

/-- `std::map<int, std::string> partial_results`, as a key-sorted
association list. -/
abbrev SegMap := List (Nat × String)

/-- Lookup in the segment map (`partial_results.count(i)` followed by
`partial_results[i]`). -/
def segLookup : SegMap → Nat → Option String
  | [], _ => none
  | (k, v) :: rest, i => if i = k then some v else segLookup rest i

/-- Insert-or-overwrite (`partial_results[k] = v`), keeping keys sorted the
way `std::map` does. -/
def segInsert : SegMap → Nat → String → SegMap
  | [], k, v => [(k, v)]
  | (k', v') :: rest, k, v =>
    if k < k' then (k, v) :: (k', v') :: rest
    else if k = k' then (k, v) :: rest
    else (k', v') :: segInsert rest k v

/-- The session-relevant fields of `WhisperModelState`:
`volatile int cancel_flag`, `std::vector<int> last_forbidden_languages`,
`std::map<int, std::string> partial_results`.  (The JNI plumbing fields and
the engine context pointer carry no decision logic.) -/
structure WhisperModelState where
  cancel_flag : Bool
  last_forbidden_languages : List LangId
  partial_results : SegMap
deriving Repr, DecidableEq

/-- A freshly constructed `WhisperModelState` (`new WhisperModelState()` in
`openNative` / `openFromBufferNative`): `cancel_flag = 0` by its in-class
initializer and both containers default-constructed empty. -/
def newWhisperModelState : WhisperModelState :=
  { cancel_flag := false, last_forbidden_languages := [], partial_results := [] }

/-- The state mutations `inferNative` performs before the decode starts:
`state->cancel_flag = 0;` (line 71) and
`state->last_forbidden_languages = forbidden_languages;` (line 99).
No other field of the session state is written before `whisper_full`;
in particular `partial_results` is left as it was. -/
def infer_session_start (forbidden : List LangId) (s : WhisperModelState) :
    WhisperModelState :=
  { s with cancel_flag := false, last_forbidden_languages := forbidden }

/-- `cancelNative`: `state->cancel_flag = 1;`. -/
def cancelNative (s : WhisperModelState) : WhisperModelState :=
  { s with cancel_flag := true }

/-! ### Partial-text callback (`wparams.partial_text_callback`) -/

/-- The engine-context data the callback consults: the special-token ids
(`whisper_token_beg(ctx)`, …) and the token vocabulary
(`whisper_token_to_str`). -/
structure TokCtx where
  tok_beg : Int
  tok_eot : Int
  tok_nosp : Int
  tok_not : Int
  tok_prev : Int
  tok_solm : Int
  tok_sot : Int
  tok_transcribe : Int
  tok_translate : Int
  to_str : Int → String

/-- The `skipping` predicate of the callback loop (lines 221-236): control
and structural tokens, plus any id in the timestamp range
`[whisper_token_beg(ctx), whisper_token_beg(ctx) + 1500]`. -/
def token_skipped (ctx : TokCtx) (id : Int) : Bool :=
  (id == ctx.tok_beg) || (id == ctx.tok_eot) || (id == ctx.tok_nosp) ||
  (id == ctx.tok_not) || (id == ctx.tok_prev) || (id == ctx.tok_solm) ||
  (id == ctx.tok_sot) || (id == ctx.tok_transcribe) || (id == ctx.tok_translate) ||
  (decide (ctx.tok_beg ≤ id) && decide (id ≤ ctx.tok_beg + 1500))

/-- The `partial` string built by the callback loop: the concatenated
`whisper_token_to_str` text of the non-skipped tokens, in order. -/
def segment_text (ctx : TokCtx) : List Int → String
  | [] => ""
  | id :: rest =>
    (if token_skipped ctx id then "" else ctx.to_str id) ++ segment_text ctx rest

/-- The aggregation loop
`for(int i=0; i<whisper_full_n_segments_from_state(state); i++)`:
append `partial_results[i]` for every populated index below `n`. -/
def concat_below (m : SegMap) (n : Nat) : String :=
  (List.range n).foldl
    (fun acc i =>
      match segLookup m i with
      | some s => acc ++ s
      | none => acc)
    ""

/-- One invocation of `wparams.partial_text_callback` with the current
segment count `n_segments = whisper_full_n_segments_from_state(state)`:
build `partial` from the tokens, store it at
`partial_results[n_segments]` (overwriting), then emit
`final_partial` = the stored texts of all indices below `n_segments`, in
index order, followed by `partial`.  Returns the updated map and the
preview string handed to `invokePartialResult`. -/
def partial_text_callback (ctx : TokCtx) (tokens : List Int) (n_segments : Nat)
    (m : SegMap) : SegMap × String :=
  let cur := segment_text ctx tokens
  let m2 := segInsert m n_segments cur
  (m2, concat_below m2 n_segments ++ cur)

/-! ### Post-decode output construction (lines 354-376) -/

/-- The final-segment concatenation loop with the trailing-artifact trim
(lines 358-364): segment `i` is skipped exactly when its text is `" you"`
and `i == n_segments - 1`. -/
def trim_concat_go (n : Nat) : Nat → List String → String
  | _, [] => ""
  | i, seg :: rest =>
    (if seg = " you" ∧ i = n - 1 then "" else seg) ++ trim_concat_go n (i + 1) rest

/-- `output` after the segment loop, starting from `i = 0` with
`n = n_segments`. -/
def trim_concat (final_segments : List String) : String :=
  trim_concat_go final_segments.length 0 final_segments

/-- Plain concatenation of a list of strings (used to state what
`trim_concat` computes). -/
def concat_all : List String → String
  | [] => ""
  | s :: rest => s ++ concat_all rest

/-- The output construction of `inferNative` after `whisper_full` returns
(lines 354-376): concatenate-and-trim the final segments, then overwrite
with the forbidden-language sentinel when the detected language is in
`forbidden_languages`, then overwrite with the cancellation sentinel when
`state->cancel_flag` is set.  `lang_str` models `whisper_lang_str`. -/
def build_output (lang_str : LangId → String) (final_segments : List String)
    (detected_lang : LangId) (forbidden : List LangId) (cancel_flag : Bool) :
    String :=
  let output := trim_concat final_segments
  let output :=
    if detected_lang ∈ forbidden then
      "<>CANCELLED<> lang=" ++ lang_str detected_lang
    else output
  if cancel_flag then "<>CANCELLED<> flag" else output

/-- The value `inferNative` returns as a function of the `whisper_full`
result code `res` and the post-decode data.  A non-zero `res` is only
logged (`AKLOGE`, lines 295-297); control falls through to the same
output construction unconditionally. -/
def infer_result (res : Int) (lang_str : LangId → String)
    (final_segments : List String) (detected_lang : LangId)
    (forbidden : List LangId) (cancel_flag : Bool) : String :=
  let _error_was_logged : Bool := decide (res ≠ 0)
  build_output lang_str final_segments detected_lang forbidden cancel_flag

/-! ### `closeNative` (lines 390-398) -/

/-- The observable effects of `closeNative`. -/
inductive CloseAction
  | free_context
  | delete_state
deriving Repr, DecidableEq

/-- `closeNative`: the handle is cast to a `WhisperModelState*`; a null
handle returns immediately (`if(!state) return;`), otherwise
`whisper_free(state->context)` runs and the state is deleted. -/
def closeNative (handle : Option WhisperModelState) : List CloseAction :=
  match handle with
  | none => []
  | some _ => [CloseAction.free_context, CloseAction.delete_state]

/-! ### Thread-count sanitization (lines 104-105) -/

/-- `long num_procs = sysconf(_SC_NPROCESSORS_ONLN);
if(num_procs < 2 || num_procs > 16) num_procs = 6;` -/
def sanitize_num_procs (n : Int) : Int :=
  if n < 2 ∨ n > 16 then 6 else n

end WhisperGGML

namespace WhisperGGML

/-! ### Helper lemmas -/

/-- Inserting at key `k` leaves lookups at other keys unchanged. -/
theorem segLookup_segInsert_ne (m : SegMap) (k : Nat) (v : String) (i : Nat)
    (h : i ≠ k) : segLookup (segInsert m k v) i = segLookup m i := by
  induction m with
  | nil => simp [segInsert, segLookup, h]
  | cons hd tl ih =>
    obtain ⟨k', v'⟩ := hd
    simp only [segInsert]
    by_cases h1 : k < k'
    · simp [h1, segLookup, h]
    · by_cases h2 : k = k'
      · subst h2
        simp [h1, segLookup, h]
      · simp only [h1, h2, if_false]
        simp only [segLookup]
        by_cases h3 : i = k'
        · simp [h3]
        · simp [h3, ih]

/-- If two maps agree on all keys below `n`, the aggregation loop produces
the same string. -/
theorem concat_below_congr (m1 m2 : SegMap) (n : Nat)
    (h : ∀ i, i < n → segLookup m2 i = segLookup m1 i) :
    concat_below m2 n = concat_below m1 n := by
  unfold concat_below
  have key : ∀ (l : List Nat) (acc : String), (∀ i ∈ l, i < n) →
      l.foldl (fun acc i => match segLookup m2 i with
        | some s => acc ++ s
        | none => acc) acc
      = l.foldl (fun acc i => match segLookup m1 i with
        | some s => acc ++ s
        | none => acc) acc := by
    intro l
    induction l with
    | nil => intro acc _; rfl
    | cons hd tl ih =>
      intro acc hmem
      simp only [List.foldl_cons]
      rw [h hd (hmem hd (List.mem_cons_self hd tl))]
      exact ih _ (fun i hi => hmem i (List.mem_cons_of_mem hd hi))
  exact key (List.range n) "" (fun i hi => List.mem_range.mp hi)

end WhisperGGML

namespace WhisperGGML

/-- C1 (as stated): a preferred list of size > 2 whose first two entries are
equal should resolve with no primary hint.  At `preferred = [0, 0, 1]` the
code takes the `size > 2 && has_duplicate` branch, which sets
`wparams.language = whisper_lang_str(allowed_languages[0])`, so the resolved
policy's primary hint is `some 0`, not `none`. -/
theorem c1_counterexample :
    ¬ ((resolve [0, 0, 1]).primary_hint = none
       ∧ (resolve [0, 0, 1]).allow_list = List.eraseIdx [0, 0, 1] 1
       ∧ (resolve [0, 0, 1]).auto_detect = true) := by
  decide

/-- C1 (amended): for every preferred list of size > 2 whose first two
entries are equal, resolution produces primary hint `preferred[0]`, an
allow-list equal to the preferred list with the entry at index 1 removed,
and `auto_detect = true`. -/
theorem c1_amended (l0 l1 : LangId) (rest : List LangId) (hdup : l0 = l1)
    (hne : rest ≠ []) :
    resolve (l0 :: l1 :: rest) =
      { primary_hint := some l0
        allow_list := List.eraseIdx (l0 :: l1 :: rest) 1
        auto_detect := true } := by
  subst hdup
  obtain ⟨r, rs, rfl⟩ := List.exists_cons_of_ne_nil hne
  simp [resolve, configure_language, policy_auto_detect, List.eraseIdx]

/-- C1 witness: the amended statement at `preferred = [0, 0, 1]`. -/
theorem c1_amended_witness :
    (0 : LangId) = 0 ∧ ([1] : List LangId) ≠ [] ∧
      resolve [0, 0, 1] =
        { primary_hint := some 0, allow_list := [0, 1], auto_detect := true } := by
  refine ⟨rfl, by decide, ?_⟩
  rw [c1_amended 0 0 [1] rfl (by decide)]
  decide

/-- C2 (as stated): a preferred list of size ≥ 2 whose first two entries
differ should resolve with no primary hint.  At `preferred = [0, 1]` the code
takes the distinct-languages branch, which sets
`wparams.language = whisper_lang_str(allowed_languages[0])` ("But still set
first language as hint"), so the primary hint is `some 0`, not `none`. -/
theorem c2_counterexample :
    ¬ ((resolve [0, 1]).primary_hint = none
       ∧ (resolve [0, 1]).allow_list = [0, 1]
       ∧ (resolve [0, 1]).auto_detect = true) := by
  decide

/-- C2 (amended): for every preferred list of size ≥ 2 whose first two
entries differ, resolution produces primary hint `preferred[0]`, an
allow-list equal to the preferred list unchanged, and `auto_detect = true`. -/
theorem c2_amended (l0 l1 : LangId) (rest : List LangId) (hne : l0 ≠ l1) :
    resolve (l0 :: l1 :: rest) =
      { primary_hint := some l0
        allow_list := l0 :: l1 :: rest
        auto_detect := true } := by
  simp [resolve, configure_language, policy_auto_detect, hne]

/-- C2 witness: the amended statement at `preferred = [0, 1]`. -/
theorem c2_amended_witness :
    (0 : LangId) ≠ 1 ∧
      resolve [0, 1] =
        { primary_hint := some 0, allow_list := [0, 1], auto_detect := true } := by
  refine ⟨by decide, ?_⟩
  exact c2_amended 0 1 [] (by decide)

end WhisperGGML

namespace WhisperGGML

/-- C3 (as stated): at session start both the cancellation gate and the
partial-results map should be reset.  `inferNative` resets only
`cancel_flag` (line 71); `partial_results` is never cleared, so at a state
carrying `partial_results = [(0, "hello")]` from an earlier session on the
same handle, the map is still non-empty after session start. -/
theorem c3_counterexample :
    ¬ (((infer_session_start []
          { cancel_flag := true, last_forbidden_languages := [2],
            partial_results := [(0, "hello")] }).cancel_flag = false)
       ∧ ((infer_session_start []
          { cancel_flag := true, last_forbidden_languages := [2],
            partial_results := [(0, "hello")] }).partial_results = [])) := by
  decide

/-- C3 (amended): at the start of every transcribe session the cancellation
gate is reset to false, but the partial-results map is left exactly as it
was; it is empty only by virtue of the fresh-handle initialization in
`openNative` / `openFromBufferNative`. -/
theorem c3_amended (forbidden : List LangId) (s : WhisperModelState) :
    (infer_session_start forbidden s).cancel_flag = false
    ∧ (infer_session_start forbidden s).partial_results = s.partial_results
    ∧ newWhisperModelState.partial_results = [] :=
  ⟨rfl, rfl, rfl⟩

/-- C4: `cancelNative` sets the gate, and whenever the gate is set at
output-construction time the returned string is exactly
`"<>CANCELLED<> flag"` — for every detected language, forbidden set and
final segment list, so in particular even when the forbidden-language
condition also holds and the segments contain real text. -/
theorem c4_cancel_overrides_everything :
    (∀ s : WhisperModelState, (cancelNative s).cancel_flag = true)
    ∧ ∀ (lang_str : LangId → String) (final_segments : List String)
        (detected_lang : LangId) (forbidden : List LangId),
        build_output lang_str final_segments detected_lang forbidden true =
          "<>CANCELLED<> flag" :=
  ⟨fun _ => rfl, fun _ _ _ _ => rfl⟩

/-- C5: when the detected language is in the forbidden set and the
cancellation gate is not set, the output is exactly
`"<>CANCELLED<> lang=<code>"` with `<code>` the detected language's short
tag, regardless of the segment texts. -/
theorem c5_forbidden_veto (lang_str : LangId → String)
    (final_segments : List String) (detected_lang : LangId)
    (forbidden : List LangId) (hmem : detected_lang ∈ forbidden) :
    build_output lang_str final_segments detected_lang forbidden false =
      "<>CANCELLED<> lang=" ++ lang_str detected_lang := by
  simp [build_output, hmem]

/-- A concrete stand-in for `whisper_lang_str`. -/
def demo_lang_str : LangId → String := fun id =>
  if id = 3 then "ru" else if id = 0 then "en" else "xx"

/-- C5 witness: detected language 3 ("ru") forbidden, gate clear, segments
carrying real text. -/
theorem c5_forbidden_veto_witness :
    (3 : LangId) ∈ [(2 : LangId), 3] ∧
      build_output demo_lang_str ["real text"] 3 [2, 3] false =
        "<>CANCELLED<> lang=ru" := by
  refine ⟨by decide, ?_⟩
  rw [c5_forbidden_veto demo_lang_str ["real text"] 3 [2, 3] (by decide)]
  decide

/-- C8: the `whisper_full` result code never changes the returned string —
for every `res` the output equals the same post-decode construction, and in
particular when neither the veto nor the gate fires the caller still
receives the trimmed concatenation of whatever segments the engine
produced. -/
theorem c8_engine_error_not_surfaced (res : Int) (lang_str : LangId → String)
    (final_segments : List String) (detected_lang : LangId)
    (forbidden : List LangId) (cancel_flag : Bool) :
    infer_result res lang_str final_segments detected_lang forbidden cancel_flag
      = build_output lang_str final_segments detected_lang forbidden cancel_flag
    ∧ (detected_lang ∉ forbidden → cancel_flag = false →
        infer_result res lang_str final_segments detected_lang forbidden cancel_flag
          = trim_concat final_segments) := by
  constructor
  · rfl
  · intro hmem hc
    subst hc
    simp [infer_result, build_output, hmem]

/-- C8 witness: a failing result code `-3`, detected language not
forbidden, gate clear: the caller still gets the trimmed segment text. -/
theorem c8_engine_error_not_surfaced_witness :
    (-3 : Int) ≠ 0 ∧ (0 : LangId) ∉ [(2 : LangId), 3] ∧
      infer_result (-3) demo_lang_str ["I think", " you"] 0 [2, 3] false =
        "I think" := by
  refine ⟨by decide, by decide, ?_⟩
  rw [(c8_engine_error_not_surfaced (-3) demo_lang_str ["I think", " you"] 0
    [2, 3] false).2 (by decide) rfl]
  decide

/-- C9: the decode thread count is the reported hardware concurrency when
that value lies in `[2, 16]` and 6 otherwise; in particular 0, 1, 17 and
1000 all map to 6 while 2 and 16 pass through unchanged. -/
theorem c9_thread_count_clamp :
    (∀ n : Int, sanitize_num_procs n = if 2 ≤ n ∧ n ≤ 16 then n else 6)
    ∧ sanitize_num_procs 0 = 6 ∧ sanitize_num_procs 1 = 6
    ∧ sanitize_num_procs 17 = 6 ∧ sanitize_num_procs 1000 = 6
    ∧ sanitize_num_procs 2 = 2 ∧ sanitize_num_procs 16 = 16 := by
  refine ⟨?_, by decide, by decide, by decide, by decide, by decide, by decide⟩
  intro n
  unfold sanitize_num_procs
  split <;> split <;> omega

/-- C10: `closeNative` on a null (zero) handle performs no effect at all:
it neither frees an engine context nor deletes any state. -/
theorem c10_close_null_noop : closeNative none = [] := rfl

end WhisperGGML

namespace WhisperGGML

/-- A concrete engine-token context for the aggregation scenario: realistic
special-token ids and a small vocabulary. -/
def demo_ctx : TokCtx :=
  { tok_beg := 50364, tok_eot := 50257, tok_nosp := 50362, tok_not := 50363
    tok_prev := 50361, tok_solm := 50359, tok_sot := 50258
    tok_transcribe := 50360, tok_translate := 50358
    to_str := fun id =>
      if id = 1 then "hello" else if id = 2 then "hello"
      else if id = 3 then " world" else if id = 4 then " there" else "" }

/-- First callback of the scenario: segment 0, tokens producing "hello"
(50400 is a timestamp token and is filtered out). -/
def demo_call1 : SegMap × String := partial_text_callback demo_ctx [1, 50400] 0 []

/-- Second callback: segment 0 again, tokens now producing "hello world". -/
def demo_call2 : SegMap × String := partial_text_callback demo_ctx [2, 3] 0 demo_call1.1

/-- Third callback: segment 1, tokens producing " there". -/
def demo_call3 : SegMap × String := partial_text_callback demo_ctx [4] 1 demo_call2.1

/-- C6: the scenario segment-0 "hello", segment-0 "hello world",
segment-1 " there" yields previews "hello", "hello world",
"hello world there"; and in general every callback overwrites the stored
text for its segment index and emits the stored texts of all lower indices,
in index order, followed by the current segment's text. -/
theorem c6_partial_aggregation :
    (demo_call1.2 = "hello" ∧ demo_call2.2 = "hello world"
      ∧ demo_call3.2 = "hello world there")
    ∧ ∀ (ctx : TokCtx) (tokens : List Int) (n_segments : Nat) (m : SegMap),
        (partial_text_callback ctx tokens n_segments m).1
            = segInsert m n_segments (segment_text ctx tokens)
        ∧ (partial_text_callback ctx tokens n_segments m).2
            = concat_below m n_segments ++ segment_text ctx tokens := by
  refine ⟨⟨by decide, by decide, by decide⟩, ?_⟩
  intro ctx tokens n m
  constructor
  · rfl
  · have hcongr := concat_below_congr m
      (segInsert m n (segment_text ctx tokens)) n
      (fun i hi => segLookup_segInsert_ne m n (segment_text ctx tokens) i
        (Nat.ne_of_lt hi))
    calc (partial_text_callback ctx tokens n m).2
        = concat_below (segInsert m n (segment_text ctx tokens)) n
            ++ segment_text ctx tokens := rfl
      _ = concat_below m n ++ segment_text ctx tokens := by rw [hcongr]

/-- The segment loop dropping behaviour, stated against plain
concatenation: starting the loop at index `i` with `i + l.length = n`,
the segments appended are exactly `l` unless the final one is `" you"`,
which is skipped. -/
theorem trim_concat_go_eq (n : Nat) :
    ∀ (l : List String) (i : Nat), i + l.length = n →
      trim_concat_go n i l =
        concat_all (if l.getLast? = some " you" then l.dropLast else l) := by
  intro l
  induction l with
  | nil => intro i h; simp [trim_concat_go, concat_all]
  | cons seg rest ih =>
    intro i h
    cases rest with
    | nil =>
      have hi : i = n - 1 := by simp at h; omega
      by_cases hseg : seg = " you"
      · subst hseg
        simp [trim_concat_go, hi, concat_all]
      · simp [trim_concat_go, hseg, hi, concat_all]
    | cons r rs =>
      have hilt : i ≠ n - 1 := by simp at h; omega
      have hcond : ¬ (seg = " you" ∧ i = n - 1) := fun hc => hilt hc.2
      have hrec := ih (i + 1) (by simp at h ⊢; omega)
      rw [show trim_concat_go n i (seg :: r :: rs)
            = (if seg = " you" ∧ i = n - 1 then "" else seg)
              ++ trim_concat_go n (i + 1) (r :: rs) from rfl,
        if_neg hcond, hrec, List.getLast?_cons_cons, List.dropLast_cons₂]
      by_cases hl : (r :: rs).getLast? = some " you"
      · simp [hl, concat_all]
      · simp [hl, concat_all]

/-- C7: in the final concatenation a segment is dropped exactly when it is
the last segment and its text is exactly `" you"`; in particular
`["I think", " you"]` yields `"I think"`, `[" you"]` yields `""`, and
`["great", " you", " you"]` yields `"great you"`. -/
theorem c7_trailing_trim :
    (∀ final_segments : List String,
        trim_concat final_segments =
          concat_all (if final_segments.getLast? = some " you"
            then final_segments.dropLast else final_segments))
    ∧ trim_concat ["I think", " you"] = "I think"
    ∧ trim_concat [" you"] = ""
    ∧ trim_concat ["great", " you", " you"] = "great you" := by
  refine ⟨?_, by decide, by decide, by decide⟩
  intro segs
  exact trim_concat_go_eq segs.length segs 0 (by simp)

end WhisperGGML
